import Mathlib

/-!
Verification of the Graph Construction & Serving Pipeline of the
paper-pigeon deployment repository.

The relevant program lives in `src/services/s3.ts` (`DynamoDBService`):
it fetches researchers, paper edges, advisor edges, library entries,
papers, metrics and descriptions from a document store, fuzzy-matches
free-text lab names against a hardcoded lab registry, and assembles one
`{nodes, links}` graph snapshot.  This file gives a shallow embedding of
that code, faithful to the TypeScript/JavaScript semantics actually used
(string normalization, `String.prototype.includes`, the default
`Array.prototype.sort` comparator on UTF-16 code units, JavaScript
truthiness of the `advisor` field, `Map.set` last-write-wins, DynamoDB's
100-key `BatchGet` cap), and proves or refutes the frozen claims about
the pipeline.
-/

namespace PaperPigeon

/-! ## JavaScript string primitives -/

/-- Lexicographic `≤` on char lists by code unit, the comparison used by the
JavaScript default `Array.prototype.sort` comparator on strings. -/
def charListLe : List Char → List Char → Bool
  | [], _ => true
  | _ :: _, [] => false
  | a :: as, b :: bs =>
    if a.toNat < b.toNat then true
    else if b.toNat < a.toNat then false
    else charListLe as bs

/-- `≤` on strings by UTF-16 code units (all inputs here are ASCII). -/
def jsStrLe (a b : String) : Bool := charListLe a.toList b.toList

/-- Does `s` start with `pre`? -/
def startsWithChars : List Char → List Char → Bool
  | _, [] => true
  | [], _ :: _ => false
  | c :: s, d :: pre => (c == d) && startsWithChars s pre

/-- Does `s` contain `sub` as a contiguous run?  (`s.includes(sub)` in JS;
note `s.includes("")` is `true`.) -/
def containsChars (sub : List Char) : List Char → Bool
  | [] => startsWithChars [] sub
  | c :: rest => startsWithChars (c :: rest) sub || containsChars sub rest

/-- JavaScript `haystack.includes(needle)`. -/
def strIncludes (haystack needle : String) : Bool :=
  containsChars needle.toList haystack.toList

/-- `str.toLowerCase().replace(/[^a-z0-9]/g, '')` — the `normalize` helper
inside `fuzzyMatchLab` (ASCII case mapping, which covers every string the
registry and the store use). -/
def normalize (s : String) : String :=
  String.mk (((s.toList).map Char.toLower).filter (fun c => c.isLower || c.isDigit))

/-- Separator class of the regex `[\s_-]`. -/
def isSepChar (c : Char) : Bool := c.isWhitespace || c == '_' || c == '-'

/-- Splitting on the regex `/(?=[A-Z])|[\s_-]+/`: a run of separator
characters ends the current segment (runs are merged by the `+`, tracked
by the `inRun` flag), and an uppercase letter ends the current segment
without being consumed (zero-width lookahead; it produces no empty
leading segment). -/
def jsSplitTokensAux : List Char → Bool → List Char → List String
  | [], _, cur => [String.mk cur.reverse]
  | c :: rest, inRun, cur =>
    if isSepChar c then
      if inRun then jsSplitTokensAux rest true cur
      else String.mk cur.reverse :: jsSplitTokensAux rest true []
    else if c.isUpper ∧ cur ≠ [] then
      String.mk cur.reverse :: jsSplitTokensAux rest false [c]
    else
      jsSplitTokensAux rest false (c :: cur)

/-- JS `s.split(/(?=[A-Z])|[\s_-]+/)`. -/
def jsSplitTokens (s : String) : List String := jsSplitTokensAux s.toList false []

/-- JS `s.split(sep)` for a single-character separator: every occurrence
splits, adjacent separators produce empty segments. -/
def jsSplitCharAux (sep : Char) : List Char → List Char → List String
  | [], cur => [String.mk cur.reverse]
  | c :: rest, cur =>
    if c == sep then String.mk cur.reverse :: jsSplitCharAux sep rest []
    else jsSplitCharAux sep rest (c :: cur)

/-- JS `s.split('_')` and friends. -/
def jsSplitChar (sep : Char) (s : String) : List String :=
  jsSplitCharAux sep s.toList []

/-- `array.filter((x, index, array) => array.indexOf(x) === index)`:
keep the first occurrence of each element. -/
def jsUniqueAux (seen : List String) : List String → List String
  | [] => []
  | x :: xs => if x ∈ seen then jsUniqueAux seen xs else x :: jsUniqueAux (x :: seen) xs

/-- Deduplication keeping first occurrences (exact, case-sensitive equality). -/
def jsUnique (l : List String) : List String := jsUniqueAux [] l

/-- Insert into a sorted list, JS code-unit order. -/
def orderedInsertJs (x : String) : List String → List String
  | [] => [x]
  | y :: ys => if jsStrLe x y then x :: y :: ys else y :: orderedInsertJs x ys

/-- `array.sort()` with the default comparator (strings compared by UTF-16
code units, ascending).  Insertion sort is extensionally the sort the JS
runtime performs. -/
def sortTags : List String → List String
  | [] => []
  | x :: xs => orderedInsertJs x (sortTags xs)

/-- Model of a JavaScript `Map` built by iterating `set` over `l` in order
(last write wins), then calling `get k`. -/
def mapGet {α : Type} (l : List (String × α)) (k : String) : Option α :=
  (l.reverse.find? (fun p => p.1 == k)).map (fun p => p.2)

/-! ## Data model (the exported interfaces of `s3.ts`)

Optional (`?:`) fields are `Option`s with `none` standing for
`undefined`/`null`.  Numbers that the code treats arithmetically are
modelled as `ℚ`. -/

/-- `interface Paper`. -/
structure Paper where
  document_id : String
  title : String
  year : Int
  tags : Option (List String) := none
  lab_id : Option String := none
deriving DecidableEq, Repr

/-- `interface Researcher` (the raw researchers-table record). -/
structure Researcher where
  researcher_id : String
  name : String
  advisor : Option String := none
  contact_info : Option (List String) := none
  labs : Option (List String) := none
  standing : Option String := none
  papers : Option (List Paper) := none
  tags : Option (List String) := none
  influence : Option ℚ := none
  about : Option String := none
deriving DecidableEq, Repr

/-- `interface Lab` — one canonical-registry entry. -/
structure Lab where
  lab_id : String
  name : String
deriving DecidableEq, Repr

/-- `interface PaperEdge` — one authorship record. -/
structure PaperEdge where
  researcher_one_id : String
  researcher_two_id : String
deriving DecidableEq, Repr

/-- `interface AdvisorEdge` — one advising record. -/
structure AdvisorEdge where
  advisee_id : String
  advisor_id : String
deriving DecidableEq, Repr

/-- `interface Library` — one association-table row. -/
structure Library where
  researcher_id : String
  document_id : String
deriving DecidableEq, Repr

/-- A dynamically-typed attribute value as the document client hands it
over: a number or a free string.  (`Number(...)` is applied to it by
`fetchMetrics`.) -/
inductive JsVal where
  | num (q : ℚ)
  | str (s : String)
deriving DecidableEq, Repr

/-- A raw metrics-table item before validation: `influence` may be absent
(`undefined`/`null`, modelled `none`) or any attribute value. -/
structure RawMetric where
  researcher_id : String
  influence : Option JsVal := none
deriving DecidableEq, Repr

/-- `interface Metrics` after `fetchMetrics` validation. -/
structure Metrics where
  researcher_id : String
  influence : Option ℚ := none
deriving DecidableEq, Repr

/-- `interface Description` (raw descriptions-table record). -/
structure Description where
  researcher_id : String
  about : Option String := none
deriving DecidableEq, Repr

/-- Node type enum (`'researcher' | 'lab'`). -/
inductive NodeType where
  | researcher
  | lab
deriving DecidableEq, Repr

/-- Link type enum (`'paper' | 'advisor' | 'researcher_lab'`). -/
inductive LinkType where
  | paper
  | advisor
  | researcher_lab
deriving DecidableEq, Repr

/-- One element of `GraphData.nodes`. -/
structure Node where
  id : String
  name : String
  val : ℕ
  type : NodeType
  advisor : Option String := none
  contact_info : Option (List String) := none
  labs : Option (List String) := none
  standing : Option String := none
  papers : Option (List Paper) := none
  tags : Option (List String) := none
  influence : Option ℚ := none
  about : Option String := none
deriving DecidableEq, Repr

/-- One element of `GraphData.links`. -/
structure Link where
  source : String
  target : String
  type : LinkType
deriving DecidableEq, Repr

/-- `interface GraphData` — the assembled snapshot. -/
structure GraphData where
  nodes : List Node
  links : List Link
deriving DecidableEq, Repr

/-- The backing tables the service reads, as one immutable value: the
input of a single assembly run. -/
structure Store where
  researchers : List Researcher
  paperEdges : List PaperEdge
  advisorEdges : List AdvisorEdge
  library : List Library
  papers : List Paper
  metrics : List RawMetric
  descriptions : List Description
deriving Repr

/-! ## LabResolver: `fuzzyMatchLab` / `findBestLabMatch` -/

/-- The match-counting loop shared by the token stage: count the
researcher words with a containment match among the lab words and divide
by the researcher word count, guarded to `0` when there are no researcher
words. -/
def tokenFractionCore (researcherWords labWords : List String) : ℚ :=
  let matchCount := (researcherWords.filter (fun word =>
    labWords.any (fun labWord => strIncludes labWord word || strIncludes word labWord))).length
  if 0 < researcherWords.length then (matchCount : ℚ) / (researcherWords.length : ℚ) else 0

/-- The "partial word matches" stage of `fuzzyMatchLab`, applied — exactly
as in the source — to the already-normalized strings: researcher words are
`normalizedResearcherLab.split(/(?=[A-Z])|[\s_-]+/)`, lab words are
`normalizedLabId.split('_')` together with
`normalizedLabName.split(/(?=[A-Z])|[\s_-]+/)`, both filtered to length
`> 2`. -/
def tokenScore (normalizedResearcherLab normalizedLabId normalizedLabName : String) : ℚ :=
  tokenFractionCore
    ((jsSplitTokens normalizedResearcherLab).filter (fun w => 2 < w.length))
    ((jsSplitChar '_' normalizedLabId ++ jsSplitTokens normalizedLabName).filter
      (fun w => 2 < w.length))

/-- `DynamoDBService.fuzzyMatchLab`: normalized exact match scores `1.0`,
substring containment either direction against id or name scores `0.8`,
otherwise the token stage decides. -/
def fuzzyMatchLab (researcherLabName labId labName : String) : ℚ :=
  if normalize researcherLabName = normalize labId ∨
      normalize researcherLabName = normalize labName then 1
  else if strIncludes (normalize researcherLabName) (normalize labId) = true ∨
      strIncludes (normalize labId) (normalize researcherLabName) = true then 4 / 5
  else if strIncludes (normalize researcherLabName) (normalize labName) = true ∨
      strIncludes (normalize labName) (normalize researcherLabName) = true then 4 / 5
  else tokenScore (normalize researcherLabName) (normalize labId) (normalize labName)

/-- Loop body of `findBestLabMatch`: keep the incumbent unless the
candidate scores strictly higher. -/
def bestStep (researcherLabName : String) (acc : Option Lab × ℚ) (lab : Lab) : Option Lab × ℚ :=
  if fuzzyMatchLab researcherLabName lab.lab_id lab.name > acc.2 then
    (some lab, fuzzyMatchLab researcherLabName lab.lab_id lab.name)
  else acc

/-- `DynamoDBService.findBestLabMatch`: fold the loop over the registry,
starting from no match and the `0.3` threshold. -/
def findBestLabMatch (researcherLabName : String) (labs : List Lab) : Option Lab :=
  (labs.foldl (bestStep researcherLabName) (none, 3 / 10)).1

/-- `DynamoDBService.getLabs()` — the hardcoded canonical lab registry. -/
def getLabs : List Lab :=
  [ { lab_id := "aims_lab", name := "AIMS Lab" },
    { lab_id := "behavioral_data_science_group", name := "Behavioral Data Science Group" },
    { lab_id := "bespoke_silicon_group", name := "Bespoke Silicon Group" },
    { lab_id := "database_group", name := "Database Group" },
    { lab_id := "h2_lab", name := "H2 Lab" },
    { lab_id := "human_centered_robotics_lab", name := "Human-Centered Robotics Lab" },
    { lab_id := "ictd_lab",
      name := "Information and Communication Technology for Development (ICTD) Lab" },
    { lab_id := "interactive_data_lab", name := "Interactive Data Lab" },
    { lab_id := "make4all_group", name := "Make4all Group" },
    { lab_id := "makeability_lab", name := "Makeability Lab" },
    { lab_id := "molecular_information_systems_lab",
      name := "Molecular Information Systems Lab (MISL)" },
    { lab_id := "mostafavi_lab", name := "Mostafavi Lab" },
    { lab_id := "personal_robotics_lab", name := "Personal Robotics Lab" },
    { lab_id := "raivn_lab", name := "RAIVN Lab" },
    { lab_id := "robot_learning_lab", name := "Robot Learning Lab" },
    { lab_id := "sampl", name := "SAMPL" },
    { lab_id := "social_futures_lab", name := "Social Futures Lab" },
    { lab_id := "social_rl_lab", name := "Social RL Lab" },
    { lab_id := "snail_lab", name := "Systems Neuroscience & AI Lab (SNAIL)" },
    { lab_id := "theory_of_computation_group", name := "Theory of Computation Group" },
    { lab_id := "tsvetshop", name := "Tsvetshop" },
    { lab_id := "ubicomp_lab", name := "UbiComp Lab" },
    { lab_id := "uw_reality_lab", name := "UW Reality Lab" },
    { lab_id := "weird_lab", name := "WEIRD Lab" },
    { lab_id := "wildlab", name := "Wildlab" } ]

/-! ## RecordFetcher: the by-id fetches -/

/-- The batching loop `for (let i = 0; i < ids.length; i += 100)
batches.push(ids.slice(i, i + 100))` used by `fetchMetrics`,
`fetchDescriptions` and `fetchResearchersByIds`. -/
def chunk100 (ids : List String) : List (List String) :=
  if ids = [] then [] else ids.take 100 :: chunk100 (ids.drop 100)
termination_by ids.length
decreasing_by
  simp only [List.length_drop]
  have : 0 < ids.length := List.length_pos.mpr (by assumption)
  omega

/-- Key batches that `fetchPapers` sends to the store: the whole id list
goes into one single `BatchGetCommand` — there is no chunking loop in
`fetchPapers` (contrast `chunk100` above). -/
def papersKeyBatches (documentIds : List String) : List (List String) :=
  if documentIds = [] then [] else [documentIds]

/-- One `BatchGetCommand` against a table keyed by `key`: each requested id
that has an item in the table contributes that item; unknown ids are
simply absent. -/
def batchGet {α : Type} (key : α → String) (table : List α) (ids : List String) : List α :=
  ids.filterMap (fun id => table.find? (fun item => key item == id))

/-- `DynamoDBService.fetchPapers`: empty input short-circuits to `[]`;
otherwise a single `BatchGetCommand` carries every key, so a request of
more than 100 keys is rejected by the store (`BatchGet` hard cap) and the
`catch` turns the failure into `[]`. -/
def fetchPapersModel (store : Store) (documentIds : List String) : List Paper :=
  if documentIds = [] then []
  else if 100 < documentIds.length then []
  else batchGet Paper.document_id store.papers documentIds

/-- `Number(value)` on an attribute value. -/
def parseDigitsNat (cs : List Char) : ℕ :=
  cs.foldl (fun n c => n * 10 + (c.toNat - 48)) 0

/-- Decimal literal parser backing the string case of `Number(...)`:
optional sign, digits, optional fraction part.  Returns `none` for NaN. -/
def parseDecimal (cs : List Char) : Option ℚ :=
  let intPart := cs.takeWhile Char.isDigit
  let rest := cs.dropWhile Char.isDigit
  match rest with
  | [] => if intPart = [] then none else some (parseDigitsNat intPart)
  | '.' :: fracPart =>
    if fracPart.all Char.isDigit ∧ (intPart ≠ [] ∨ fracPart ≠ []) then
      some ((parseDigitsNat intPart : ℚ) + (parseDigitsNat fracPart : ℚ) / (10 : ℚ) ^ fracPart.length)
    else none
  | _ => none

/-- JS `Number(s)` for a string (`none` models `NaN`; the empty string
converts to `0`; exotic forms such as hex or exponents do not occur in the
store and are treated as NaN). -/
def jsStringToNumber (s : String) : Option ℚ :=
  let t := s.toList.dropWhile Char.isWhitespace |>.reverse.dropWhile Char.isWhitespace |>.reverse
  match t with
  | [] => some 0
  | '-' :: rest => (parseDecimal rest).map (fun q => -q)
  | '+' :: rest => parseDecimal rest
  | _ => parseDecimal t

/-- JS `Number(v)` for a defined attribute value. -/
def jsNumber : JsVal → Option ℚ
  | .num q => some q
  | .str s => jsStringToNumber s

/-- The per-item validation inside `fetchMetrics`: `undefined`/`null`
stays undefined; otherwise `Number(...)` is taken and a NaN or
out-of-`[0,100]` result is replaced by undefined (with a logged warning). -/
def processMetric (metric : RawMetric) : Metrics :=
  match metric.influence with
  | none => { researcher_id := metric.researcher_id, influence := none }
  | some v =>
    match jsNumber v with
    | none => { researcher_id := metric.researcher_id, influence := none }
    | some q =>
      if q < 0 ∨ 100 < q then { researcher_id := metric.researcher_id, influence := none }
      else { researcher_id := metric.researcher_id, influence := some q }

/-- The per-item mapping inside `fetchDescriptions`:
`about: desc.about || ''`. -/
def processDescription (desc : Description) : Description :=
  { researcher_id := desc.researcher_id, about := some (desc.about.getD "") }

/-- `DynamoDBService.fetchMetrics`: split into 100-key batches, issue the
batch gets, concatenate the responses in batch order (`Promise.all`
preserves it), then validate each item. -/
def fetchMetricsModel (store : Store) (researcherIds : List String) : List Metrics :=
  if researcherIds = [] then []
  else
    (((chunk100 researcherIds).map
        (batchGet RawMetric.researcher_id store.metrics)).flatten).map processMetric

/-- `DynamoDBService.fetchDescriptions`: same batching shape as
`fetchMetrics`. -/
def fetchDescriptionsModel (store : Store) (researcherIds : List String) : List Description :=
  if researcherIds = [] then []
  else
    (((chunk100 researcherIds).map
        (batchGet Description.researcher_id store.descriptions)).flatten).map processDescription

/-- `DynamoDBService.fetchLibraryEntries`: a filtered scan of the library
table on `researcher_id`. -/
def fetchLibraryEntriesModel (store : Store) (researcherId : String) : List Library :=
  if researcherId = "" then []
  else store.library.filter (fun entry => entry.researcher_id == researcherId)

/-! ## GraphAssembler: `fetchGraphData` -/

/-- JavaScript truthiness of the `advisor` field:
`undefined`, `null` and `""` are falsy. -/
def truthyAdvisor : Option String → Bool
  | none => false
  | some s => s ≠ ""

/-- The `// Extract unique tags from all papers` step: flatten
`paper.tags || []`, drop duplicates keeping first occurrences, sort with
the default comparator. -/
def computeTags (papers : List Paper) : List String :=
  sortTags (jsUnique (papers.flatMap (fun paper => paper.tags.getD [])))

/-- The `metricsMap` of `fetchGraphData`, as key/value pairs in insertion
order. -/
def metricsPairs (store : Store) : List (String × Option ℚ) :=
  (fetchMetricsModel store (store.researchers.map (fun r => r.researcher_id))).map
    (fun m => (m.researcher_id, m.influence))

/-- The `descriptionsMap` of `fetchGraphData`. -/
def descriptionsPairs (store : Store) : List (String × Description) :=
  (fetchDescriptionsModel store (store.researchers.map (fun r => r.researcher_id))).map
    (fun d => (d.researcher_id, d))

/-- The `researcherMap` of `fetchGraphData`. -/
def researcherPairs (store : Store) : List (String × Researcher) :=
  store.researchers.map (fun r => (r.researcher_id, r))

/-- `researcherMap.has(id)`. -/
def researcherMapHas (store : Store) (id : String) : Bool :=
  (mapGet (researcherPairs store) id).isSome

/-- The researcher-node construction inside `fetchGraphData`: fetch the
library entries, batch-fetch the papers, compute the tag list, and attach
influence and description through the two maps. -/
def researcherNodeOf (store : Store) (r : Researcher) : Node :=
  let documentIds := (fetchLibraryEntriesModel store r.researcher_id).map
    (fun entry => entry.document_id)
  let papers := fetchPapersModel store documentIds
  { id := r.researcher_id
    name := r.name
    val := 1
    type := .researcher
    advisor := r.advisor
    contact_info := r.contact_info
    labs := r.labs
    standing := r.standing
    papers := some papers
    tags := some (computeTags papers)
    influence := (mapGet (metricsPairs store) r.researcher_id).join
    about := (mapGet (descriptionsPairs store) r.researcher_id).bind (fun d => d.about) }

/-- The lab-node construction inside `fetchGraphData`. -/
def labNodeOf (lab : Lab) : Node :=
  { id := lab.lab_id, name := lab.name, val := 2, type := .lab }

/-- Paper links: keep each authorship record only when both researcher ids
are in `researcherMap`. -/
def paperLinksOf (store : Store) : List Link :=
  (store.paperEdges.filter (fun edge =>
      researcherMapHas store edge.researcher_one_id &&
      researcherMapHas store edge.researcher_two_id)).map
    (fun edge => { source := edge.researcher_one_id
                   target := edge.researcher_two_id
                   type := .paper })

/-- Advisor links: keep each advising record only when both researcher ids
are in `researcherMap`. -/
def advisorLinksOf (store : Store) : List Link :=
  (store.advisorEdges.filter (fun edge =>
      researcherMapHas store edge.advisee_id &&
      researcherMapHas store edge.advisor_id)).map
    (fun edge => { source := edge.advisee_id
                   target := edge.advisor_id
                   type := .advisor })

/-- The researcher-to-lab loop body of `fetchGraphData` for one
researcher: `if (!researcher.advisor && researcher.labs &&
researcher.labs.length > 0)`, then one `findBestLabMatch` call per
free-text lab name, one link per match. -/
def researcherLabLinksFor (labs : List Lab) (r : Researcher) : List Link :=
  if truthyAdvisor r.advisor = false ∧ 0 < (r.labs.getD []).length then
    (r.labs.getD []).filterMap (fun researcherLabName =>
      (findBestLabMatch researcherLabName labs).map
        (fun matchedLab => { source := r.researcher_id
                             target := matchedLab.lab_id
                             type := .researcher_lab }))
  else []

/-- All researcher-to-lab links. -/
def researcherLabLinksOf (store : Store) : List Link :=
  store.researchers.flatMap (researcherLabLinksFor getLabs)

/-- `DynamoDBService.fetchGraphData` as a pure function of the backing
store: researcher nodes then lab nodes, paper links then advisor links
then researcher-lab links. -/
def fetchGraphData (store : Store) : GraphData :=
  { nodes := store.researchers.map (researcherNodeOf store) ++ getLabs.map labNodeOf
    links := paperLinksOf store ++ advisorLinksOf store ++ researcherLabLinksOf store }

/-! ## Error paths of the fetch stage

Each table read either yields its rows or fails (store unavailable,
timeout).  `fetchResearchers`, `fetchPaperEdges` and `fetchAdvisorEdges`
log and `throw error` again, so a failure rejects the `Promise.all` and
the outer `catch` of `fetchGraphData` rethrows; `fetchPapers`,
`fetchMetrics`, `fetchDescriptions` and `fetchLibraryEntries` catch and
return `[]` "to prevent UI crashes".  No fetch performs any retry. -/

/-- The backing tables with per-table availability. -/
structure StoreE where
  researchersR : Except String (List Researcher)
  paperEdgesR : Except String (List PaperEdge)
  advisorEdgesR : Except String (List AdvisorEdge)
  libraryR : Except String (List Library)
  papersR : Except String (List Paper)
  metricsR : Except String (List RawMetric)
  descriptionsR : Except String (List Description)

/-- The `catch { return [] }` pattern of the by-id fetches. -/
def swallow {α : Type} : Except String (List α) → List α
  | .ok rows => rows
  | .error _ => []

/-- `fetchGraphData` in the presence of table failures: the three full
scans run under `Promise.all` and any failure of them rethrows out of
`fetchGraphData`; the remaining tables degrade to empty results inside
their own `catch` blocks. -/
def fetchGraphDataE (s : StoreE) : Except String GraphData :=
  match s.researchersR, s.paperEdgesR, s.advisorEdgesR with
  | .ok researchers, .ok paperEdges, .ok advisorEdges =>
    .ok (fetchGraphData
      { researchers := researchers
        paperEdges := paperEdges
        advisorEdges := advisorEdges
        library := swallow s.libraryR
        papers := swallow s.papersR
        metrics := swallow s.metricsR
        descriptions := swallow s.descriptionsR })
  | .error e, _, _ => .error e
  | _, .error e, _ => .error e
  | _, _, .error e => .error e

/-! ## CacheStore (modelled from the spec) -/

/-- Modelled from the spec: the snapshot sources tried by
`load_graph_cache` in `backend/app.py`, which is not among the sources
(only the diagnostics reports describe it).  A source on the prioritized
list either is missing, fails to parse, or holds a valid snapshot. -/
inductive SnapshotSource where
  | missing
  | corrupt
  | valid (g : GraphData)
deriving DecidableEq, Repr

/-- Modelled from the spec: a source qualifies when it exists and parses
as a valid `{nodes, links}` document. -/
def usableSource : SnapshotSource → Option GraphData
  | .valid g => some g
  | .missing => none
  | .corrupt => none

/-- Modelled from the spec: `load_graph_cache()` walks the prioritized
source list; the first usable source wins; if none qualify the served
snapshot is set to the explicit empty `{nodes: [], links: []}` rather
than raising. -/
def loadGraphCache : List SnapshotSource → GraphData
  | [] => { nodes := [], links := [] }
  | s :: rest =>
    match usableSource s with
    | some g => g
    | none => loadGraphCache rest

/-- Modelled from the spec: `get_graph_data()` triggers the load when
still unloaded and returns the served snapshot; it is a total function,
so it never raises. -/
def getGraphDataCache (sources : List SnapshotSource) : GraphData :=
  loadGraphCache sources

/-! ## Spec-side tokenization (for the refinement comparison of the token
stage) -/

/-- The token stage as the spec words it: "tokenize the free-text name on
word/camel-case boundaries and each lab's id (by `_`) and name (by word
boundaries); keep tokens longer than 2 characters; score = (researcher
tokens with a containment match in lab tokens) / (total researcher
tokens)" — tokenization applied to the raw strings, each token then
normalized for the containment comparison. -/
def specTokenFraction (researcherLabName labId labName : String) : ℚ :=
  tokenFractionCore
    (((jsSplitTokens researcherLabName).map normalize).filter (fun w => 2 < w.length))
    ((((jsSplitChar '_' labId) ++ jsSplitTokens labName).map normalize).filter
      (fun w => 2 < w.length))

/-! ## Concrete sample inputs used to witness the theorems -/

/-- The publication of spec Scenario E, carrying tags
`["nlp", "NLP", "vision"]`. -/
def paperScenarioE : Paper :=
  { document_id := "d1", title := "Example", year := 2020
    tags := some ["nlp", "NLP", "vision"] }

/-- An advisor-less researcher listing the free-text lab name `"AIMS"`. -/
def researcherAda : Researcher :=
  { researcher_id := "r1", name := "Ada", labs := some ["AIMS"] }

/-- A researcher with an advisor, listing the same free-text lab name. -/
def researcherGrace : Researcher :=
  { researcher_id := "r2", name := "Grace", advisor := some "Ada"
    labs := some ["AIMS"] }

/-- A small concrete store: two researchers, one authorship record, one
advising record, one library row and one paper, plus metrics and
description rows for `"r1"`. -/
def storeW : Store :=
  { researchers := [researcherAda, researcherGrace]
    paperEdges := [{ researcher_one_id := "r1", researcher_two_id := "r2" }]
    advisorEdges := [{ advisee_id := "r2", advisor_id := "r1" }]
    library := [{ researcher_id := "r1", document_id := "d1" }]
    papers := [paperScenarioE]
    metrics := [{ researcher_id := "r1", influence := some (.num 42) }]
    descriptions := [{ researcher_id := "r1", about := some "About Ada" }] }

/-- A store whose papers table persistently fails while everything else is
healthy. -/
def storePapersDown : StoreE :=
  { researchersR := .ok [researcherAda]
    paperEdgesR := .ok []
    advisorEdgesR := .ok []
    libraryR := .ok [{ researcher_id := "r1", document_id := "d1" }]
    papersR := .error "papers table unavailable"
    metricsR := .ok []
    descriptionsR := .ok [] }

/-- A raw metrics record carrying a numeric influence of 42. -/
def rawMetric42 : RawMetric := { researcher_id := "r1", influence := some (.num 42) }

/-- A fully healthy store wrapping `storeW`. -/
def storeHealthy : StoreE :=
  { researchersR := .ok storeW.researchers
    paperEdgesR := .ok storeW.paperEdges
    advisorEdgesR := .ok storeW.advisorEdges
    libraryR := .ok storeW.library
    papersR := .ok storeW.papers
    metricsR := .ok storeW.metrics
    descriptionsR := .ok storeW.descriptions }

/-! ## Lemmas about the string order and the tag pipeline -/

lemma charListLe_total : ∀ as bs : List Char,
    charListLe as bs = true ∨ charListLe bs as = true := by
  intro as
  induction as with
  | nil => intro bs; left; cases bs <;> rfl
  | cons a as ih =>
    intro bs
    cases bs with
    | nil => right; rfl
    | cons b bs =>
      simp only [charListLe]
      rcases Nat.lt_trichotomy a.toNat b.toNat with h | h | h
      · left
        rw [if_pos h]
      · rw [if_neg (by omega), if_neg (by omega), if_neg (by omega), if_neg (by omega)]
        exact ih bs
      · right
        rw [if_pos h]

lemma charListLe_trans : ∀ as bs cs : List Char,
    charListLe as bs = true → charListLe bs cs = true → charListLe as cs = true := by
  intro as
  induction as with
  | nil => intro bs cs _ _; cases cs <;> rfl
  | cons a as ih =>
    intro bs cs h1 h2
    cases bs with
    | nil => exact absurd h1 (by simp [charListLe])
    | cons b bs =>
      cases cs with
      | nil => exact absurd h2 (by simp [charListLe])
      | cons c cs =>
        simp only [charListLe] at h1 h2 ⊢
        split_ifs at h1 h2 ⊢ <;>
          first
          | rfl
          | omega
          | exact ih bs cs h1 h2

lemma jsStrLe_total (a b : String) : jsStrLe a b = true ∨ jsStrLe b a = true :=
  charListLe_total a.toList b.toList

lemma jsStrLe_trans (a b c : String) (h1 : jsStrLe a b = true) (h2 : jsStrLe b c = true) :
    jsStrLe a c = true :=
  charListLe_trans a.toList b.toList c.toList h1 h2

lemma perm_orderedInsertJs (x : String) :
    ∀ l : List String, List.Perm (orderedInsertJs x l) (x :: l) := by
  intro l
  induction l with
  | nil => exact List.Perm.refl _
  | cons y ys ih =>
    rw [orderedInsertJs]
    split
    · exact List.Perm.refl _
    · exact (ih.cons y).trans (List.Perm.swap x y ys)

lemma perm_sortTags : ∀ l : List String, List.Perm (sortTags l) l := by
  intro l
  induction l with
  | nil => exact List.Perm.refl _
  | cons x xs ih => exact (perm_orderedInsertJs x (sortTags xs)).trans (ih.cons x)

lemma mem_orderedInsertJs (x y : String) (l : List String) :
    y ∈ orderedInsertJs x l ↔ y = x ∨ y ∈ l := by
  rw [(perm_orderedInsertJs x l).mem_iff, List.mem_cons]

lemma sorted_orderedInsertJs (x : String) :
    ∀ l : List String, List.Sorted (fun a b => jsStrLe a b = true) l →
      List.Sorted (fun a b => jsStrLe a b = true) (orderedInsertJs x l) := by
  intro l
  induction l with
  | nil => intro _; simp [orderedInsertJs]
  | cons y ys ih =>
    intro h
    rw [List.sorted_cons] at h
    rw [orderedInsertJs]
    split
    · rename_i hxy
      rw [List.sorted_cons]
      refine ⟨?_, ?_⟩
      · intro b hb
        rcases List.mem_cons.mp hb with rfl | hb
        · exact hxy
        · exact jsStrLe_trans x y b hxy (h.1 b hb)
      · rw [List.sorted_cons]
        exact h
    · rename_i hxy
      rw [List.sorted_cons]
      refine ⟨?_, ih h.2⟩
      intro b hb
      rcases (mem_orderedInsertJs x b ys).mp hb with rfl | hb
      · rcases jsStrLe_total b y with hby | hyb
        · exact absurd hby hxy
        · exact hyb
      · exact h.1 b hb

lemma sorted_sortTags : ∀ l : List String,
    List.Sorted (fun a b => jsStrLe a b = true) (sortTags l) := by
  intro l
  induction l with
  | nil => simp [sortTags]
  | cons x xs ih => exact sorted_orderedInsertJs x (sortTags xs) ih

lemma mem_jsUniqueAux : ∀ (l seen : List String) (x : String),
    x ∈ jsUniqueAux seen l ↔ x ∈ l ∧ x ∉ seen := by
  intro l
  induction l with
  | nil => simp [jsUniqueAux]
  | cons a as ih =>
    intro seen x
    rw [jsUniqueAux]
    split
    · rename_i ha
      rw [ih]
      constructor
      · rintro ⟨hx, hs⟩
        exact ⟨List.mem_cons_of_mem a hx, hs⟩
      · rintro ⟨hx, hs⟩
        rcases List.mem_cons.mp hx with rfl | hx
        · exact absurd ha hs
        · exact ⟨hx, hs⟩
    · rename_i ha
      rw [List.mem_cons, ih]
      constructor
      · rintro (rfl | ⟨hx, hs⟩)
        · exact ⟨List.mem_cons_self _ _, fun hc => ha hc⟩
        · refine ⟨List.mem_cons_of_mem a hx, fun hc => hs (List.mem_cons_of_mem a hc)⟩
      · rintro ⟨hx, hs⟩
        rcases List.mem_cons.mp hx with rfl | hx
        · exact Or.inl rfl
        · by_cases hxa : x = a
          · exact Or.inl hxa
          · exact Or.inr ⟨hx, fun hc => by
              rcases List.mem_cons.mp hc with h | h
              · exact hxa h
              · exact hs h⟩

lemma nodup_jsUniqueAux : ∀ l seen : List String, (jsUniqueAux seen l).Nodup := by
  intro l
  induction l with
  | nil => intro seen; simp [jsUniqueAux]
  | cons a as ih =>
    intro seen
    rw [jsUniqueAux]
    split
    · exact ih seen
    · refine List.Nodup.cons ?_ (ih (a :: seen))
      intro hc
      exact ((mem_jsUniqueAux as (a :: seen) a).mp hc).2 (List.mem_cons_self a seen)

lemma mem_jsUnique (l : List String) (x : String) : x ∈ jsUnique l ↔ x ∈ l := by
  rw [jsUnique, mem_jsUniqueAux]
  simp

lemma nodup_jsUnique (l : List String) : (jsUnique l).Nodup :=
  nodup_jsUniqueAux l []

lemma mem_computeTags (papers : List Paper) (t : String) :
    t ∈ computeTags papers ↔ ∃ p ∈ papers, t ∈ p.tags.getD [] := by
  rw [computeTags, (perm_sortTags _).mem_iff, mem_jsUnique, List.mem_flatMap]

lemma sorted_computeTags (papers : List Paper) :
    List.Sorted (fun a b => jsStrLe a b = true) (computeTags papers) :=
  sorted_sortTags _

lemma nodup_computeTags (papers : List Paper) : (computeTags papers).Nodup :=
  (perm_sortTags _).nodup_iff.mpr (nodup_jsUnique _)

/-! ## Lemmas about the map model -/

lemma mapGet_isSome_iff {α : Type} (l : List (String × α)) (k : String) :
    (mapGet l k).isSome = true ↔ ∃ v, (k, v) ∈ l := by
  rw [mapGet]
  constructor
  · intro h
    cases hf : List.find? (fun p => p.1 == k) l.reverse with
    | none => rw [hf] at h; simp at h
    | some p =>
      have hp := List.find?_some hf
      have hm := List.mem_of_find?_eq_some hf
      rw [List.mem_reverse] at hm
      have hk : p.1 = k := by simpa using hp
      exact ⟨p.2, by rwa [← hk, Prod.mk.eta]⟩
  · rintro ⟨v, hv⟩
    have hex : ∃ p ∈ l.reverse, (fun p : String × α => p.1 == k) p = true :=
      ⟨(k, v), List.mem_reverse.mpr hv, by simp⟩
    rw [← List.find?_isSome] at hex
    cases hf : List.find? (fun p => p.1 == k) l.reverse with
    | none => rw [hf] at hex; simp at hex
    | some p => rfl

lemma researcherMapHas_iff (store : Store) (id : String) :
    researcherMapHas store id = true ↔ ∃ r ∈ store.researchers, r.researcher_id = id := by
  rw [researcherMapHas, mapGet_isSome_iff]
  constructor
  · rintro ⟨v, hv⟩
    rw [researcherPairs] at hv
    rcases List.mem_map.mp hv with ⟨r, hr, he⟩
    exact ⟨r, hr, congrArg Prod.fst he⟩
  · rintro ⟨r, hr, he⟩
    exact ⟨r, List.mem_map.mpr ⟨r, hr, by rw [he]⟩⟩

/-! ## Lemmas about batching -/

lemma chunk100_flatten (ids : List String) : (chunk100 ids).flatten = ids := by
  rw [chunk100]
  split
  · rename_i h
    rw [h]
    rfl
  · rename_i h
    rw [List.flatten_cons, chunk100_flatten (ids.drop 100)]
    exact List.take_append_drop 100 ids
termination_by ids.length
decreasing_by
  simp only [List.length_drop]
  have : 0 < ids.length := List.length_pos.mpr (by assumption)
  omega

lemma chunk100_mem_length (ids : List String) :
    ∀ b ∈ chunk100 ids, b.length ≤ 100 := by
  rw [chunk100]
  split
  · simp
  · intro b hb
    rcases List.mem_cons.mp hb with rfl | hb
    · exact List.length_take_le 100 ids
    · exact chunk100_mem_length (ids.drop 100) b hb
termination_by ids.length
decreasing_by
  simp only [List.length_drop]
  have : 0 < ids.length := List.length_pos.mpr (by assumption)
  omega

lemma batchGet_chunked {α : Type} (key : α → String) (table : List α) (ids : List String) :
    ((chunk100 ids).map (batchGet key table)).flatten = batchGet key table ids := by
  have hflat : ∀ L : List (List String),
      (L.map (batchGet key table)).flatten = batchGet key table L.flatten := by
    intro L
    induction L with
    | nil => rfl
    | cons b L ih =>
      simp only [List.map_cons, List.flatten_cons, ih]
      simp only [batchGet, List.filterMap_append]
  rw [hflat, chunk100_flatten]

lemma fetchMetricsModel_eq (store : Store) (ids : List String) :
    fetchMetricsModel store ids =
      (batchGet RawMetric.researcher_id store.metrics ids).map processMetric := by
  rw [fetchMetricsModel]
  split
  · rename_i h
    rw [h]
    rfl
  · rw [batchGet_chunked]

lemma fetchDescriptionsModel_eq (store : Store) (ids : List String) :
    fetchDescriptionsModel store ids =
      (batchGet Description.researcher_id store.descriptions ids).map processDescription := by
  rw [fetchDescriptionsModel]
  split
  · rename_i h
    rw [h]
    rfl
  · rw [batchGet_chunked]

lemma mem_batchGet {α : Type} (key : α → String) (table : List α) (ids : List String) (x : α) :
    x ∈ batchGet key table ids ↔
      ∃ id ∈ ids, table.find? (fun item => key item == id) = some x := by
  rw [batchGet, List.mem_filterMap]

/-! ## Lemmas about the resolver scores -/

lemma tokenFractionCore_nonneg (rws lws : List String) : 0 ≤ tokenFractionCore rws lws := by
  rw [tokenFractionCore]
  split
  · exact div_nonneg (Nat.cast_nonneg _) (Nat.cast_nonneg _)
  · exact le_refl 0

lemma tokenFractionCore_le_one (rws lws : List String) : tokenFractionCore rws lws ≤ 1 := by
  rw [tokenFractionCore]
  split
  · rename_i h
    refine div_le_one_of_le₀ ?_ (Nat.cast_nonneg _)
    exact_mod_cast List.length_filter_le _ rws
  · norm_num

lemma fuzzyMatchLab_nonneg (a b c : String) : 0 ≤ fuzzyMatchLab a b c := by
  rw [fuzzyMatchLab]
  split_ifs
  · norm_num
  · norm_num
  · norm_num
  · exact tokenFractionCore_nonneg _ _

lemma fuzzyMatchLab_le_one (a b c : String) : fuzzyMatchLab a b c ≤ 1 := by
  rw [fuzzyMatchLab]
  split_ifs
  · norm_num
  · norm_num
  · norm_num
  · exact tokenFractionCore_le_one _ _

/-! ## The selection loop of `findBestLabMatch` -/

lemma foldBest_spec (name : String) :
    ∀ (labs : List Lab) (acc : Option Lab × ℚ),
      (labs.foldl (bestStep name) acc = acc ∧
        ∀ lab ∈ labs, fuzzyMatchLab name lab.lab_id lab.name ≤ acc.2) ∨
      (∃ best l₁ l₂, labs = l₁ ++ best :: l₂ ∧
        labs.foldl (bestStep name) acc =
          (some best, fuzzyMatchLab name best.lab_id best.name) ∧
        acc.2 < fuzzyMatchLab name best.lab_id best.name ∧
        (∀ lab ∈ l₁, fuzzyMatchLab name lab.lab_id lab.name <
          fuzzyMatchLab name best.lab_id best.name) ∧
        (∀ lab ∈ l₂, fuzzyMatchLab name lab.lab_id lab.name ≤
          fuzzyMatchLab name best.lab_id best.name)) := by
  intro labs
  induction labs with
  | nil =>
    intro acc
    left
    exact ⟨rfl, by simp⟩
  | cons lab rest ih =>
    intro acc
    rw [List.foldl_cons]
    by_cases h : acc.2 < fuzzyMatchLab name lab.lab_id lab.name
    · have hstep : bestStep name acc lab =
          (some lab, fuzzyMatchLab name lab.lab_id lab.name) := by
        rw [bestStep, if_pos h]
      rw [hstep]
      rcases ih (some lab, fuzzyMatchLab name lab.lab_id lab.name) with
        ⟨heq, hle⟩ | ⟨best, l₁, l₂, hsplit, heq, hlt, hl₁, hl₂⟩
      · right
        refine ⟨lab, [], rest, rfl, heq, h, by simp, ?_⟩
        intro lab2 h2
        exact hle lab2 h2
      · right
        refine ⟨best, lab :: l₁, l₂, by rw [hsplit]; rfl, heq, lt_trans h hlt, ?_, hl₂⟩
        intro lab2 h2
        rcases List.mem_cons.mp h2 with rfl | h2
        · exact hlt
        · exact hl₁ lab2 h2
    · have hstep : bestStep name acc lab = acc := by
        rw [bestStep, if_neg h]
      rw [hstep]
      rcases ih acc with ⟨heq, hle⟩ | ⟨best, l₁, l₂, hsplit, heq, hlt, hl₁, hl₂⟩
      · left
        refine ⟨heq, ?_⟩
        intro lab2 h2
        rcases List.mem_cons.mp h2 with rfl | h2
        · exact not_lt.mp h
        · exact hle lab2 h2
      · right
        refine ⟨best, lab :: l₁, l₂, by rw [hsplit]; rfl, heq, hlt, ?_, hl₂⟩
        intro lab2 h2
        rcases List.mem_cons.mp h2 with rfl | h2
        · exact lt_of_le_of_lt (not_lt.mp h) hlt
        · exact hl₁ lab2 h2

lemma findBestLabMatch_cases (name : String) (labs : List Lab) :
    (findBestLabMatch name labs = none ∧
      ∀ lab ∈ labs, fuzzyMatchLab name lab.lab_id lab.name ≤ 3 / 10) ∨
    (∃ best l₁ l₂, labs = l₁ ++ best :: l₂ ∧ findBestLabMatch name labs = some best ∧
      3 / 10 < fuzzyMatchLab name best.lab_id best.name ∧
      (∀ lab ∈ l₁, fuzzyMatchLab name lab.lab_id lab.name <
        fuzzyMatchLab name best.lab_id best.name) ∧
      (∀ lab ∈ l₂, fuzzyMatchLab name lab.lab_id lab.name ≤
        fuzzyMatchLab name best.lab_id best.name)) := by
  rcases foldBest_spec name labs (none, 3 / 10) with
    ⟨heq, hle⟩ | ⟨best, l₁, l₂, hsplit, heq, hlt, hl₁, hl₂⟩
  · left
    exact ⟨by rw [findBestLabMatch, heq], hle⟩
  · right
    exact ⟨best, l₁, l₂, hsplit, by rw [findBestLabMatch, heq], hlt, hl₁, hl₂⟩

lemma findBestLabMatch_mem (name : String) (labs : List Lab) (lab : Lab)
    (h : findBestLabMatch name labs = some lab) : lab ∈ labs := by
  rcases findBestLabMatch_cases name labs with ⟨hnone, _⟩ |
    ⟨best, l₁, l₂, hsplit, hsome, _, _, _⟩
  · rw [hnone] at h
    exact absurd h (by simp)
  · rw [hsome] at h
    have hbest : best = lab := Option.some.inj h
    rw [hsplit, ← hbest]
    exact List.mem_append_right l₁ (List.mem_cons_self _ _)

/-! ## Lemmas about link membership -/

lemma mem_links_iff (store : Store) (l : Link) :
    l ∈ (fetchGraphData store).links ↔
      l ∈ paperLinksOf store ∨ l ∈ advisorLinksOf store ∨ l ∈ researcherLabLinksOf store := by
  rw [fetchGraphData]
  simp [List.mem_append, or_assoc]

lemma mem_paperLinksOf (store : Store) (l : Link) :
    l ∈ paperLinksOf store ↔ ∃ e ∈ store.paperEdges,
      researcherMapHas store e.researcher_one_id = true ∧
      researcherMapHas store e.researcher_two_id = true ∧
      l = { source := e.researcher_one_id, target := e.researcher_two_id, type := .paper } := by
  rw [paperLinksOf]
  simp only [List.mem_map, List.mem_filter]
  constructor
  · rintro ⟨e, ⟨he, hband⟩, rfl⟩
    rw [Bool.and_eq_true] at hband
    exact ⟨e, he, hband.1, hband.2, rfl⟩
  · rintro ⟨e, he, h1, h2, rfl⟩
    exact ⟨e, ⟨he, by rw [h1, h2]; rfl⟩, rfl⟩

lemma mem_advisorLinksOf (store : Store) (l : Link) :
    l ∈ advisorLinksOf store ↔ ∃ e ∈ store.advisorEdges,
      researcherMapHas store e.advisee_id = true ∧
      researcherMapHas store e.advisor_id = true ∧
      l = { source := e.advisee_id, target := e.advisor_id, type := .advisor } := by
  rw [advisorLinksOf]
  simp only [List.mem_map, List.mem_filter]
  constructor
  · rintro ⟨e, ⟨he, hband⟩, rfl⟩
    rw [Bool.and_eq_true] at hband
    exact ⟨e, he, hband.1, hband.2, rfl⟩
  · rintro ⟨e, he, h1, h2, rfl⟩
    exact ⟨e, ⟨he, by rw [h1, h2]; rfl⟩, rfl⟩

lemma mem_researcherLabLinksFor (labs : List Lab) (r : Researcher) (l : Link) :
    l ∈ researcherLabLinksFor labs r ↔
      truthyAdvisor r.advisor = false ∧ ∃ nm ∈ r.labs.getD [], ∃ lab,
        findBestLabMatch nm labs = some lab ∧
        l = { source := r.researcher_id, target := lab.lab_id, type := .researcher_lab } := by
  rw [researcherLabLinksFor]
  split
  · rename_i hcond
    rw [List.mem_filterMap]
    constructor
    · rintro ⟨nm, hnm, hmap⟩
      cases hfb : findBestLabMatch nm labs with
      | none => rw [hfb] at hmap; exact absurd hmap (by simp)
      | some lab =>
        rw [hfb] at hmap
        refine ⟨hcond.1, nm, hnm, lab, hfb, ?_⟩
        exact (Option.some.inj hmap).symm
    · rintro ⟨_, nm, hnm, lab, hfb, rfl⟩
      exact ⟨nm, hnm, by rw [hfb]; rfl⟩
  · rename_i hcond
    simp only [List.not_mem_nil, false_iff]
    rintro ⟨hadv, nm, hnm, _, _, _⟩
    exact hcond ⟨hadv, List.length_pos.mpr (List.ne_nil_of_mem hnm)⟩

lemma mem_researcherLabLinksOf (store : Store) (l : Link) :
    l ∈ researcherLabLinksOf store ↔
      ∃ r ∈ store.researchers, l ∈ researcherLabLinksFor getLabs r := by
  rw [researcherLabLinksOf, List.mem_flatMap]

/-! ## Lemmas about node ids -/

lemma researcher_id_mem_nodeIds (store : Store) (r : Researcher)
    (hr : r ∈ store.researchers) :
    r.researcher_id ∈ (fetchGraphData store).nodes.map Node.id := by
  rw [fetchGraphData]
  simp only [List.map_append, List.mem_append]
  left
  rw [List.map_map]
  exact List.mem_map.mpr ⟨r, hr, rfl⟩

lemma lab_id_mem_nodeIds (store : Store) (lab : Lab) (hl : lab ∈ getLabs) :
    lab.lab_id ∈ (fetchGraphData store).nodes.map Node.id := by
  rw [fetchGraphData]
  simp only [List.map_append, List.mem_append]
  right
  rw [List.map_map]
  exact List.mem_map.mpr ⟨lab, hl, rfl⟩

lemma tokenFractionCore_eq (rws lws : List String) :
    tokenFractionCore rws lws =
      if 0 < rws.length then
        ((rws.filter (fun word => lws.any (fun labWord =>
          strIncludes labWord word || strIncludes word labWord))).length : ℚ) / (rws.length : ℚ)
      else 0 := rfl

/-! ## The claims -/

/-- C10: the lab-match scoring function is total and always returns a
score in `[0, 1]` (the token-fraction division is guarded so an empty
researcher-token list yields `0`), and the best-match selection returns
either no match or an element of the supplied registry list. -/
theorem c10_resolver_safety (rn li ln researcherLabName : String) (labs : List Lab) :
    (0 ≤ fuzzyMatchLab rn li ln ∧ fuzzyMatchLab rn li ln ≤ 1) ∧
    (∀ lab : Lab, findBestLabMatch researcherLabName labs = some lab → lab ∈ labs) :=
  ⟨⟨fuzzyMatchLab_nonneg rn li ln, fuzzyMatchLab_le_one rn li ln⟩,
   fun lab h => findBestLabMatch_mem researcherLabName labs lab h⟩

theorem c10_resolver_safety_witness :
    (0 ≤ fuzzyMatchLab "AIMS" "aims_lab" "AIMS Lab" ∧
      fuzzyMatchLab "AIMS" "aims_lab" "AIMS Lab" ≤ 1) ∧
    (∀ lab : Lab, findBestLabMatch "AIMS" getLabs = some lab → lab ∈ getLabs) :=
  c10_resolver_safety "AIMS" "aims_lab" "AIMS Lab" "AIMS" getLabs

/-- C3: the resolver returns the lab with the highest score strictly above
the `0.3` threshold, ties broken in favor of the earlier lab in the
registry's iteration order; below or at the threshold it returns no
match; and a normalized-exact match (score `1.0`) always wins whenever
one exists. -/
theorem c3_best_match_selection (researcherLabName : String) (labs : List Lab) :
    (findBestLabMatch researcherLabName labs = none →
      ∀ lab ∈ labs, fuzzyMatchLab researcherLabName lab.lab_id lab.name ≤ 3 / 10) ∧
    (∀ best, findBestLabMatch researcherLabName labs = some best →
      3 / 10 < fuzzyMatchLab researcherLabName best.lab_id best.name ∧
      (∀ lab ∈ labs, fuzzyMatchLab researcherLabName lab.lab_id lab.name ≤
        fuzzyMatchLab researcherLabName best.lab_id best.name) ∧
      ∃ l₁ l₂, labs = l₁ ++ best :: l₂ ∧
        ∀ lab ∈ l₁, fuzzyMatchLab researcherLabName lab.lab_id lab.name <
          fuzzyMatchLab researcherLabName best.lab_id best.name) ∧
    ((∃ lab ∈ labs, fuzzyMatchLab researcherLabName lab.lab_id lab.name = 1) →
      ∃ best, findBestLabMatch researcherLabName labs = some best ∧
        fuzzyMatchLab researcherLabName best.lab_id best.name = 1) := by
  rcases findBestLabMatch_cases researcherLabName labs with ⟨hnone, hle⟩ |
    ⟨best, l₁, l₂, hsplit, hsome, hthr, hl₁, hl₂⟩
  · refine ⟨fun _ => hle, ?_, ?_⟩
    · intro best hb
      rw [hnone] at hb
      exact absurd hb (by simp)
    · rintro ⟨lab, hlab, hsc⟩
      have h1 := hle lab hlab
      rw [hsc] at h1
      norm_num at h1
  · have hmax : ∀ lab ∈ labs, fuzzyMatchLab researcherLabName lab.lab_id lab.name ≤
        fuzzyMatchLab researcherLabName best.lab_id best.name := by
      intro lab hlab
      rw [hsplit] at hlab
      rcases List.mem_append.mp hlab with h | h
      · exact le_of_lt (hl₁ lab h)
      · rcases List.mem_cons.mp h with rfl | h
        · exact le_refl _
        · exact hl₂ lab h
    refine ⟨?_, ?_, ?_⟩
    · intro hn
      rw [hsome] at hn
      exact absurd hn (by simp)
    · intro best2 hb
      rw [hsome] at hb
      have hbe : best = best2 := Option.some.inj hb
      subst hbe
      exact ⟨hthr, hmax, l₁, l₂, hsplit, hl₁⟩
    · rintro ⟨lab, hlab, hsc⟩
      refine ⟨best, hsome, ?_⟩
      have hub := fuzzyMatchLab_le_one researcherLabName best.lab_id best.name
      have hge : 1 ≤ fuzzyMatchLab researcherLabName best.lab_id best.name := by
        rw [← hsc]
        exact hmax lab hlab
      exact le_antisymm hub hge

theorem c3_best_match_selection_witness :
    (findBestLabMatch "AIMS" getLabs = none →
      ∀ lab ∈ getLabs, fuzzyMatchLab "AIMS" lab.lab_id lab.name ≤ 3 / 10) ∧
    (∀ best, findBestLabMatch "AIMS" getLabs = some best →
      3 / 10 < fuzzyMatchLab "AIMS" best.lab_id best.name ∧
      (∀ lab ∈ getLabs, fuzzyMatchLab "AIMS" lab.lab_id lab.name ≤
        fuzzyMatchLab "AIMS" best.lab_id best.name) ∧
      ∃ l₁ l₂, getLabs = l₁ ++ best :: l₂ ∧
        ∀ lab ∈ l₁, fuzzyMatchLab "AIMS" lab.lab_id lab.name <
          fuzzyMatchLab "AIMS" best.lab_id best.name) ∧
    ((∃ lab ∈ getLabs, fuzzyMatchLab "AIMS" lab.lab_id lab.name = 1) →
      ∃ best, findBestLabMatch "AIMS" getLabs = some best ∧
        fuzzyMatchLab "AIMS" best.lab_id best.name = 1) :=
  c3_best_match_selection "AIMS" getLabs

/-- C4 (evidence for the code bug): at the free-text name
`"Robotics Personal"` against the registry lab `personal_robotics_lab` /
`"Personal Robotics Lab"`, neither an exact nor a substring match
applies, and the code's token stage scores `0` — because it tokenizes
the already-normalized single-token string — while the fraction of
word/camel-case tokens of the free-text name with a containment match
among the lab's underscore/word tokens, as the claim describes it, is
`2/2 = 1`. -/
theorem c4_token_stage_dead_at_input :
    fuzzyMatchLab "Robotics Personal" "personal_robotics_lab" "Personal Robotics Lab" = 0 ∧
    specTokenFraction "Robotics Personal" "personal_robotics_lab" "Personal Robotics Lab" = 1 := by
  constructor
  · rw [fuzzyMatchLab, if_neg, if_neg, if_neg]
    · have e1 : tokenScore (normalize "Robotics Personal") (normalize "personal_robotics_lab")
          (normalize "Personal Robotics Lab") =
          tokenFractionCore ["roboticspersonal"] ["personalroboticslab", "personalroboticslab"] := by
        rw [tokenScore]
        congr 1
      rw [e1, tokenFractionCore_eq, if_pos (by decide)]
      have hm : (List.filter (fun word => (["personalroboticslab", "personalroboticslab"] :
          List String).any (fun labWord => strIncludes labWord word || strIncludes word labWord))
          ["roboticspersonal"]).length = 0 := by decide
      rw [hm]
      norm_num
    · decide
    · decide
    · decide
  · have e1 : specTokenFraction "Robotics Personal" "personal_robotics_lab"
        "Personal Robotics Lab" =
        tokenFractionCore ["robotics", "personal"]
          ["personal", "robotics", "lab", "personal", "robotics", "lab"] := by
      rw [specTokenFraction]
      congr 1
    rw [e1, tokenFractionCore_eq, if_pos (by decide)]
    have hm : (List.filter (fun word => (["personal", "robotics", "lab", "personal", "robotics",
        "lab"] : List String).any (fun labWord =>
          strIncludes labWord word || strIncludes word labWord))
        ["robotics", "personal"]).length = 2 := by decide
    rw [hm]
    norm_num

/-- C8: a raw metrics record's influence survives exactly when it is a
defined value that `Number(...)` parses to a rational within `[0, 100]`,
and then it is kept unchanged; every other shape (absent, non-numeric,
out of range) becomes an absent field and is never an error. -/
theorem c8_influence_validation (metric : RawMetric) :
    (processMetric metric).researcher_id = metric.researcher_id ∧
    ∀ q : ℚ, (processMetric metric).influence = some q ↔
      ∃ v, metric.influence = some v ∧ jsNumber v = some q ∧ 0 ≤ q ∧ q ≤ 100 := by
  cases hm : metric.influence with
  | none =>
    refine ⟨by simp [processMetric, hm], ?_⟩
    intro q
    simp [processMetric, hm]
  | some v =>
    cases hn : jsNumber v with
    | none =>
      refine ⟨by simp [processMetric, hm, hn], ?_⟩
      intro q
      simp only [processMetric, hm, hn]
      constructor
      · intro h
        exact absurd h (by simp)
      · rintro ⟨v2, hv2, hq, _⟩
        rw [← Option.some.inj hv2, hn] at hq
        exact absurd hq (by simp)
    | some q0 =>
      by_cases hr : q0 < 0 ∨ 100 < q0
      · refine ⟨by simp [processMetric, hm, hn, if_pos hr], ?_⟩
        intro q
        simp only [processMetric, hm, hn, if_pos hr]
        constructor
        · intro h
          exact absurd h (by simp)
        · rintro ⟨v2, hv2, hq, hq0, hq100⟩
          rw [← Option.some.inj hv2, hn] at hq
          have hqq : q0 = q := Option.some.inj hq
          subst hqq
          rcases hr with h | h
          · exact absurd hq0 (not_le.mpr h)
          · exact absurd hq100 (not_le.mpr h)
      · refine ⟨by simp [processMetric, hm, hn, if_neg hr], ?_⟩
        intro q
        simp only [processMetric, hm, hn, if_neg hr]
        push_neg at hr
        constructor
        · intro h
          have hqq : q0 = q := Option.some.inj h
          subst hqq
          exact ⟨v, rfl, hn, hr.1, hr.2⟩
        · rintro ⟨v2, hv2, hq, _, _⟩
          rw [← Option.some.inj hv2, hn] at hq
          exact congrArg Option.some (Option.some.inj hq)

theorem c8_influence_validation_witness :
    (processMetric rawMetric42).researcher_id = rawMetric42.researcher_id ∧
    ∀ q : ℚ, (processMetric rawMetric42).influence = some q ↔
      ∃ v, rawMetric42.influence = some v ∧ jsNumber v = some q ∧ 0 ≤ q ∧ q ≤ 100 :=
  c8_influence_validation rawMetric42

/-- C9: when every source in the prioritized list is missing or fails to
parse, the cache's get returns the explicit empty snapshot
`{nodes: [], links: []}`; being a total function, it never raises. -/
theorem c9_empty_fallback (sources : List SnapshotSource)
    (h : ∀ s ∈ sources, usableSource s = none) :
    getGraphDataCache sources = { nodes := [], links := [] } := by
  induction sources with
  | nil => rfl
  | cons s rest ih =>
    rw [getGraphDataCache, loadGraphCache, h s (List.mem_cons_self _ _)]
    exact ih (fun t ht => h t (List.mem_cons_of_mem s ht))

theorem c9_empty_fallback_witness :
    getGraphDataCache [SnapshotSource.missing, SnapshotSource.corrupt] =
      { nodes := [], links := [] } :=
  c9_empty_fallback [SnapshotSource.missing, SnapshotSource.corrupt] (by decide)

/-- C1: in every assembled snapshot, both endpoint ids of every link exist
among the node ids; a paper or advisor link is stored only when both its
endpoints are researcher records, so a record with a missing endpoint is
dropped; and the node list does not depend on the authorship or advising
records at all, so dropping never changes the node count. -/
theorem c1_no_dangling_links (store : Store) :
    (∀ l ∈ (fetchGraphData store).links,
      l.source ∈ (fetchGraphData store).nodes.map Node.id ∧
      l.target ∈ (fetchGraphData store).nodes.map Node.id) ∧
    (∀ l ∈ (fetchGraphData store).links,
      (l.type = LinkType.paper ∨ l.type = LinkType.advisor) →
        (∃ r ∈ store.researchers, r.researcher_id = l.source) ∧
        (∃ r ∈ store.researchers, r.researcher_id = l.target)) ∧
    (∀ paperEdges advisorEdges,
      (fetchGraphData { store with
        paperEdges := paperEdges
        advisorEdges := advisorEdges }).nodes = (fetchGraphData store).nodes) := by
  refine ⟨?_, ?_, fun _ _ => rfl⟩
  · intro l hl
    rcases (mem_links_iff store l).mp hl with hp | ha | hrl
    · rcases (mem_paperLinksOf store l).mp hp with ⟨e, he, h1, h2, rfl⟩
      rcases (researcherMapHas_iff store _).mp h1 with ⟨r1, hr1, hid1⟩
      rcases (researcherMapHas_iff store _).mp h2 with ⟨r2, hr2, hid2⟩
      constructor
      · rw [← hid1]
        exact researcher_id_mem_nodeIds store r1 hr1
      · rw [← hid2]
        exact researcher_id_mem_nodeIds store r2 hr2
    · rcases (mem_advisorLinksOf store l).mp ha with ⟨e, he, h1, h2, rfl⟩
      rcases (researcherMapHas_iff store _).mp h1 with ⟨r1, hr1, hid1⟩
      rcases (researcherMapHas_iff store _).mp h2 with ⟨r2, hr2, hid2⟩
      constructor
      · rw [← hid1]
        exact researcher_id_mem_nodeIds store r1 hr1
      · rw [← hid2]
        exact researcher_id_mem_nodeIds store r2 hr2
    · rcases (mem_researcherLabLinksOf store l).mp hrl with ⟨r2, hr2, hfor⟩
      rcases (mem_researcherLabLinksFor getLabs r2 l).mp hfor with
        ⟨_, nm, _, lab, hfb, rfl⟩
      exact ⟨researcher_id_mem_nodeIds store r2 hr2,
        lab_id_mem_nodeIds store lab (findBestLabMatch_mem nm getLabs lab hfb)⟩
  · intro l hl htype
    rcases (mem_links_iff store l).mp hl with hp | ha | hrl
    · rcases (mem_paperLinksOf store l).mp hp with ⟨e, he, h1, h2, rfl⟩
      rcases (researcherMapHas_iff store _).mp h1 with ⟨r1, hr1, hid1⟩
      rcases (researcherMapHas_iff store _).mp h2 with ⟨r2, hr2, hid2⟩
      exact ⟨⟨r1, hr1, hid1⟩, ⟨r2, hr2, hid2⟩⟩
    · rcases (mem_advisorLinksOf store l).mp ha with ⟨e, he, h1, h2, rfl⟩
      rcases (researcherMapHas_iff store _).mp h1 with ⟨r1, hr1, hid1⟩
      rcases (researcherMapHas_iff store _).mp h2 with ⟨r2, hr2, hid2⟩
      exact ⟨⟨r1, hr1, hid1⟩, ⟨r2, hr2, hid2⟩⟩
    · rcases (mem_researcherLabLinksOf store l).mp hrl with ⟨r2, hr2, hfor⟩
      rcases (mem_researcherLabLinksFor getLabs r2 l).mp hfor with
        ⟨_, nm, _, lab, hfb, rfl⟩
      rcases htype with h | h <;> exact absurd h (by simp)

theorem c1_no_dangling_links_witness :
    (∀ l ∈ (fetchGraphData storeW).links,
      l.source ∈ (fetchGraphData storeW).nodes.map Node.id ∧
      l.target ∈ (fetchGraphData storeW).nodes.map Node.id) ∧
    (∀ l ∈ (fetchGraphData storeW).links,
      (l.type = LinkType.paper ∨ l.type = LinkType.advisor) →
        (∃ r ∈ storeW.researchers, r.researcher_id = l.source) ∧
        (∃ r ∈ storeW.researchers, r.researcher_id = l.target)) ∧
    (∀ paperEdges advisorEdges,
      (fetchGraphData { storeW with
        paperEdges := paperEdges
        advisorEdges := advisorEdges }).nodes = (fetchGraphData storeW).nodes) :=
  c1_no_dangling_links storeW

/-- C2: a `researcher_lab` link never originates from a researcher with a
(truthy) advisor value, and for every advisor-less researcher each
free-text lab name that resolves against the registry contributes its
affiliation link to the snapshot. -/
theorem c2_advisor_gates_lab_links (store : Store)
    (hids : (store.researchers.map (fun r => r.researcher_id)).Nodup)
    (r : Researcher) (hr : r ∈ store.researchers) :
    (truthyAdvisor r.advisor = true →
      ∀ l ∈ (fetchGraphData store).links, l.type = LinkType.researcher_lab →
        l.source ≠ r.researcher_id) ∧
    (truthyAdvisor r.advisor = false →
      ∀ nm ∈ r.labs.getD [], ∀ lab : Lab, findBestLabMatch nm getLabs = some lab →
        ({ source := r.researcher_id, target := lab.lab_id,
           type := LinkType.researcher_lab } : Link) ∈ (fetchGraphData store).links) := by
  constructor
  · intro hadv l hl htype hsrc
    rcases (mem_links_iff store l).mp hl with hp | ha | hrl
    · rcases (mem_paperLinksOf store l).mp hp with ⟨e, _, _, _, rfl⟩
      simp at htype
    · rcases (mem_advisorLinksOf store l).mp ha with ⟨e, _, _, _, rfl⟩
      simp at htype
    · rcases (mem_researcherLabLinksOf store l).mp hrl with ⟨r2, hr2, hfor⟩
      rcases (mem_researcherLabLinksFor getLabs r2 l).mp hfor with
        ⟨hadv2, nm, hnm, lab, hfb, rfl⟩
      have heq : r2 = r := List.inj_on_of_nodup_map hids hr2 hr hsrc
      rw [heq] at hadv2
      rw [hadv] at hadv2
      exact Bool.noConfusion hadv2
  · intro hadv nm hnm lab hfb
    apply (mem_links_iff store _).mpr
    refine Or.inr (Or.inr ?_)
    apply (mem_researcherLabLinksOf store _).mpr
    exact ⟨r, hr, (mem_researcherLabLinksFor getLabs r _).mpr
      ⟨hadv, nm, hnm, lab, hfb, rfl⟩⟩

theorem c2_advisor_gates_lab_links_witness :
    ((truthyAdvisor researcherAda.advisor = true →
      ∀ l ∈ (fetchGraphData storeW).links, l.type = LinkType.researcher_lab →
        l.source ≠ researcherAda.researcher_id) ∧
    (truthyAdvisor researcherAda.advisor = false →
      ∀ nm ∈ researcherAda.labs.getD [], ∀ lab : Lab,
        findBestLabMatch nm getLabs = some lab →
        ({ source := researcherAda.researcher_id, target := lab.lab_id,
           type := LinkType.researcher_lab } : Link) ∈ (fetchGraphData storeW).links)) ∧
    ((truthyAdvisor researcherGrace.advisor = true →
      ∀ l ∈ (fetchGraphData storeW).links, l.type = LinkType.researcher_lab →
        l.source ≠ researcherGrace.researcher_id) ∧
    (truthyAdvisor researcherGrace.advisor = false →
      ∀ nm ∈ researcherGrace.labs.getD [], ∀ lab : Lab,
        findBestLabMatch nm getLabs = some lab →
        ({ source := researcherGrace.researcher_id, target := lab.lab_id,
           type := LinkType.researcher_lab } : Link) ∈ (fetchGraphData storeW).links)) :=
  ⟨c2_advisor_gates_lab_links storeW (by decide) researcherAda (by decide),
   c2_advisor_gates_lab_links storeW (by decide) researcherGrace (by decide)⟩

/-- C5: every researcher node's tag list is the sorted, deduplicated
(exact case-sensitive equality) union of its fetched publications' tags —
sorted ascending in code-unit order with no duplicates, containing
exactly the tags of the node's papers — and publications carrying tags
`["nlp", "NLP", "vision"]` yield exactly `["NLP", "nlp", "vision"]`. -/
theorem c5_tags_sorted_dedup (store : Store) :
    (∀ n ∈ (fetchGraphData store).nodes, n.type = NodeType.researcher →
      ∃ tags, n.tags = some tags ∧
        List.Sorted (fun a b => jsStrLe a b = true) tags ∧
        tags.Nodup ∧
        (∀ t, t ∈ tags ↔ ∃ p ∈ n.papers.getD [], t ∈ p.tags.getD [])) ∧
    computeTags [paperScenarioE] = ["NLP", "nlp", "vision"] := by
  constructor
  · intro n hn htype
    rw [fetchGraphData] at hn
    rcases List.mem_append.mp hn with h | h
    · rcases List.mem_map.mp h with ⟨r, hr, rfl⟩
      refine ⟨_, rfl, sorted_computeTags _, nodup_computeTags _, ?_⟩
      intro t
      exact mem_computeTags _ t
    · rcases List.mem_map.mp h with ⟨lab, hlab, rfl⟩
      exact absurd htype (by simp [labNodeOf])
  · decide

theorem c5_tags_sorted_dedup_witness :
    (∀ n ∈ (fetchGraphData storeW).nodes, n.type = NodeType.researcher →
      ∃ tags, n.tags = some tags ∧
        List.Sorted (fun a b => jsStrLe a b = true) tags ∧
        tags.Nodup ∧
        (∀ t, t ∈ tags ↔ ∃ p ∈ n.papers.getD [], t ∈ p.tags.getD [])) ∧
    computeTags [paperScenarioE] = ["NLP", "nlp", "vision"] :=
  c5_tags_sorted_dedup storeW

/-- C6 counterexample: `fetchPapers` does not split oversized id lists —
a 101-element document-id list is sent as one single `BatchGetCommand`
key batch of 101 keys, above the 100-key cap the claim requires every
batched fetch to respect. -/
theorem c6_papers_single_batch_counterexample :
    ∃ b ∈ papersKeyBatches (List.replicate 101 "x"), 100 < b.length := by
  refine ⟨List.replicate 101 "x", ?_, by simp⟩
  rw [papersKeyBatches, if_neg (by simp)]
  exact List.mem_singleton.mpr rfl

/-- C6 as amended: the annotation fetches (metrics and descriptions by
researcher id) do split ids into batches of at most 100 keys and their
batch-order merge equals one unbounded call, order-independently as a
set, with unknown ids simply absent; the publications fetch
(`fetchPapers`) does not split — at most 100 ids behave like one
unbounded call, while more than 100 ids make the single oversized
request fail and yield `[]`. -/
theorem c6_batching_amended (store : Store) (ids : List String) :
    (∀ b ∈ chunk100 ids, b.length ≤ 100) ∧
    fetchMetricsModel store ids =
      (batchGet RawMetric.researcher_id store.metrics ids).map processMetric ∧
    fetchDescriptionsModel store ids =
      (batchGet Description.researcher_id store.descriptions ids).map processDescription ∧
    (∀ ids2, List.Perm ids ids2 →
      ∀ m, m ∈ fetchMetricsModel store ids ↔ m ∈ fetchMetricsModel store ids2) ∧
    (ids.length ≤ 100 →
      fetchPapersModel store ids = batchGet Paper.document_id store.papers ids) ∧
    (100 < ids.length → fetchPapersModel store ids = []) := by
  refine ⟨chunk100_mem_length ids, fetchMetricsModel_eq store ids,
    fetchDescriptionsModel_eq store ids, ?_, ?_, ?_⟩
  · intro ids2 hperm m
    rw [fetchMetricsModel_eq, fetchMetricsModel_eq]
    simp only [List.mem_map, mem_batchGet]
    constructor
    · rintro ⟨a, ⟨id, hid, hfind⟩, rfl⟩
      exact ⟨a, ⟨id, hperm.mem_iff.mp hid, hfind⟩, rfl⟩
    · rintro ⟨a, ⟨id, hid, hfind⟩, rfl⟩
      exact ⟨a, ⟨id, hperm.mem_iff.mpr hid, hfind⟩, rfl⟩
  · intro hle
    rw [fetchPapersModel]
    split
    · rename_i h
      rw [h]
      rfl
    · rw [if_neg (not_lt.mpr hle)]
  · intro hgt
    rw [fetchPapersModel]
    have hne : ¬(ids = []) := by
      intro h
      rw [h] at hgt
      simp at hgt
    rw [if_neg hne, if_pos hgt]

theorem c6_batching_amended_witness :
    (∀ b ∈ chunk100 ["r1", "r2"], b.length ≤ 100) ∧
    fetchMetricsModel storeW ["r1", "r2"] =
      (batchGet RawMetric.researcher_id storeW.metrics ["r1", "r2"]).map processMetric ∧
    fetchDescriptionsModel storeW ["r1", "r2"] =
      (batchGet Description.researcher_id storeW.descriptions ["r1", "r2"]).map
        processDescription ∧
    (∀ ids2, List.Perm ["r1", "r2"] ids2 →
      ∀ m, m ∈ fetchMetricsModel storeW ["r1", "r2"] ↔
        m ∈ fetchMetricsModel storeW ids2) ∧
    ((["r1", "r2"] : List String).length ≤ 100 →
      fetchPapersModel storeW ["r1", "r2"] =
        batchGet Paper.document_id storeW.papers ["r1", "r2"]) ∧
    (100 < (["r1", "r2"] : List String).length →
      fetchPapersModel storeW ["r1", "r2"] = []) :=
  c6_batching_amended storeW ["r1", "r2"]

/-- C7 counterexample: a persistent failure of the papers table does not
abort the rebuild — `fetchPapers` catches the error and returns `[]`, so
`fetchGraphData` still produces a snapshot. -/
theorem c7_swallowed_failure_counterexample :
    storePapersDown.papersR = Except.error "papers table unavailable" ∧
    (fetchGraphDataE storePapersDown).isOk = true :=
  ⟨rfl, rfl⟩

/-- C7 as amended: no fetch retries; the rebuild pass aborts exactly when
one of the three full scans (researchers, paper edges, advisor edges)
fails — failures of the by-id and library fetches are caught, degrade to
empty results, and the pass still produces a snapshot. -/
theorem c7_abort_amended (s : StoreE) :
    (fetchGraphDataE s).isOk = true ↔
      (s.researchersR.isOk = true ∧ s.paperEdgesR.isOk = true ∧
        s.advisorEdgesR.isOk = true) := by
  cases hr : s.researchersR <;> cases hp : s.paperEdgesR <;> cases ha : s.advisorEdgesR <;>
    simp [fetchGraphDataE, hr, hp, ha, Except.isOk, Except.toBool]

theorem c7_abort_amended_witness :
    (fetchGraphDataE storeHealthy).isOk = true ↔
      (storeHealthy.researchersR.isOk = true ∧ storeHealthy.paperEdgesR.isOk = true ∧
        storeHealthy.advisorEdgesR.isOk = true) :=
  c7_abort_amended storeHealthy

end PaperPigeon
